import Mathlib

/-!
# Verification of `progorm-connection` (package `connection`)

Shallow embedding of `src/connection/connection.go`: a lazily-initialized
database connection manager built on top of the external `gorm` library.

The manager's own logic (the `sync.Once` gate in `GetConnection`, the
migrated-table filter in `AutoMigrate`, the configuration-default fallback
in `NewBaseConnectionManager`, the accessors) is translated faithfully from
the source.  The external collaborators — `gorm.Open`, `(*gorm.DB).DB()`,
`(*sql.DB).SetMaxIdleConns` / `SetMaxOpenConns`, `(*gorm.DB).AutoMigrate`,
`reflect.ValueOf(..).Type()` — are modelled as an abstract environment
(`Env`) of capabilities, following the narrow interfaces the package
consumes:

* `gorm.Open(dialector, config)` may succeed with a handle or fail with an
  error; on failure it also yields a (possibly nil, possibly partial)
  handle, chosen by the environment.  Per gorm's two-argument
  `Open(Dialector, *Config)` API used by this package, `Open` installs the
  dialector into the supplied `*Config` (mutating the very object the
  manager holds) before attempting to connect; this is how the manager's
  `Dialect()` accessor, which reads `c.config.Name()` (the promoted method
  of the `Dialector` embedded in `gorm.Config`), resolves the dialect name.
* `db.DB()` retrieves the underlying `*sql.DB` and may fail.
* pool-setting calls are recorded as an event log.
* `db.AutoMigrate(tables...)` returns an environment-chosen error.
* `reflect.ValueOf(v).Type()` panics when `v` is a nil interface value
  (`reflect: call of reflect.Value.Type on zero Value`); a table value is
  therefore either `nil` or carries a type identity.

Machine-level mutation is explicit state passing on `MState` (the manager's
fields plus the observable event logs of the collaborators).
-/

namespace Progorm

/-- `reflect.Type`: the runtime type identity of a table model value. -/
abbrev GoType := Nat

/-- A `gorm.Dialector` capability; `name` is what its `Name()` returns. -/
structure Dialector where
  name : String
deriving DecidableEq, Repr

/-- A Go `interface\x7b\x7d` value passed to `AutoMigrate`: either the nil
interface or a value carrying its runtime type identity (plus an
identifier distinguishing distinct values of the same type). -/
inductive GoVal
  | nil
  | mk (ty : GoType) (ident : Nat)
deriving DecidableEq, Repr

/-- `reflect.ValueOf(v).Type()`: `none` encodes the panic on a nil
interface value (zero `reflect.Value`). -/
def GoVal.reflectType : GoVal → Option GoType
  | .nil => none
  | .mk ty _ => some ty

/-- Go `error` values.  `errConnectionClosed` is the package-level sentinel
`ErrConnectionClosed = errors.New("db connection closed")`; `external`
covers opaque collaborator errors (open / pool / sync failures), which are
distinct identities from the sentinel. -/
inductive GoError
  | errConnectionClosed
  | external (msg : String)
deriving DecidableEq, Repr

/-- Identity of a `*gorm.DB` handle (a reference). -/
abbrev DB := Nat

/-- Log verbosity levels of `gorm.io/gorm/logger`. -/
inductive LogLevel
  | silent
  | error
  | warn
  | info
deriving DecidableEq, Repr

/-- The io.Writer a logger writes to. -/
inductive Writer
  | stdout
  | stderr
  | other (ident : Nat)
deriving DecidableEq, Repr

/-- The observable parameters of a `gorm.io/gorm/logger` instance
(`logger.New(writer, logger.Config\x7b...\x7d)`). -/
structure LoggerConfig where
  writer : Writer
  slowThresholdNs : Nat
  logLevel : LogLevel
  colorful : Bool
deriving DecidableEq, Repr

/-- `time.Second` in nanoseconds. -/
def timeSecond : Nat := 1000000000

/-- The fields of `gorm.Config` this package observes: the `Logger` field
and the embedded `Dialector` (read by `Config.Name()`, installed by
`gorm.Open`).  `none` in a field is a nil Go value. -/
structure GormConfig where
  logger : Option LoggerConfig
  dialector : Option Dialector
deriving DecidableEq, Repr

/-- A recorded call on the connection-pool controls of the opened
`*sql.DB`. -/
inductive PoolCall
  | setMaxIdleConns (n : Int)
  | setMaxOpenConns (n : Int)
deriving DecidableEq, Repr

/-- Behaviour of the external collaborators, fixed per run.
`openResult n` is the outcome of the `n`-th invocation of `gorm.Open`
(counting from 0); `openErrHandle n` is the handle `gorm.Open` returns
alongside an error (gorm may return a partially-initialized non-nil
handle, or nil); `dbResult h` is the outcome of `h.DB()` (`none` =
success); `syncResult batch` is the error returned by
`db.AutoMigrate(batch...)` (`none` = success). -/
structure Env where
  openResult : Nat → Except GoError DB
  openErrHandle : Nat → Option DB
  dbResult : DB → Option GoError
  syncResult : List GoVal → Option GoError

/-- The fields of `connectionManager`. `migratedTables` is the set of keys
of the Go map `map[reflect.Type]bool` that are mapped to `true`, in
insertion order. -/
structure ConnectionManager where
  dialector : Dialector
  config : GormConfig
  connStr : String
  db : Option DB
  onceDone : Bool
  migratedTables : List GoType
deriving DecidableEq, Repr

/-- A manager together with the observable event logs of the collaborators:
how many times `gorm.Open` ran, which pool-control calls were made, which
batches were handed to the schema-sync engine, and which errors
`AutoMigrateOrWarn` logged. -/
structure MState where
  cm : ConnectionManager
  openCount : Nat
  poolCalls : List PoolCall
  syncCalls : List (List GoVal)
  loggedErrors : List GoError
deriving DecidableEq, Repr

/-- Modelled from the spec: what the external `gorm.Open(dialector,
config)` does to the config object the manager hands it.  The gorm
dependency pin (`go.mod`) is not under `src/`; the spec describes the
dialect descriptor as the capability backing `name() → string` and states
that `Dialect()` returns the configured dialect's canonical name with no
failure modes, which fixes the collaborator behaviour of gorm's
two-argument `Open(Dialector, *Config)`: it installs the dialector into
the supplied `*Config` (the very object the manager keeps) before
attempting to connect, so `Config.Name()` — the promoted method of the
embedded `Dialector` — resolves to that dialector's name. -/
def gormOpenConfig (cfg : GormConfig) (d : Dialector) : GormConfig :=
  { cfg with dialector := some d }

/-- The body of `execOnceOnlyFunc` inside `GetConnection`: run
`gorm.Open(c.dialector, c.config)` (which installs the dialector into the
config it is handed and yields a handle and/or an error), store the
returned handle in `c.db`; on success retrieve the `*sql.DB` via
`c.db.DB()` and, if that succeeds, call `SetMaxIdleConns(10)` and
`SetMaxOpenConns(-1)`.  Returns the new state and the closure's `err`. -/
def execOnceOnlyFunc (env : Env) (s : MState) : MState × Option GoError :=
  let n := s.openCount
  let cfg : GormConfig := gormOpenConfig s.cm.config s.cm.dialector
  let s := { s with
    openCount := n + 1,
    cm := { s.cm with config := cfg } }
  match env.openResult n with
  | .error e =>
      ({ s with cm := { s.cm with db := env.openErrHandle n } }, some e)
  | .ok h =>
      let s := { s with cm := { s.cm with db := some h } }
      match env.dbResult h with
      | some e => (s, some e)
      | none =>
          ({ s with
              poolCalls := s.poolCalls ++
                [.setMaxIdleConns 10, .setMaxOpenConns (-1)] }, none)

/-- `GetConnection`: `var err error` is local to the call; `c.once.Do`
runs `execOnceOnlyFunc` only when the gate has not fired yet, so on every
later call the local `err` is still nil and the stored `c.db` is returned
as-is. -/
def getConnection (env : Env) (s : MState) : MState × (Option DB × Option GoError) :=
  if s.cm.onceDone then
    (s, (s.cm.db, none))
  else
    let (s', e) := execOnceOnlyFunc env s
    let s' := { s' with cm := { s'.cm with onceDone := true } }
    (s', (s'.cm.db, e))

/-- The default logger synthesized by `NewBaseConnectionManager` when
`config == nil`: `logger.New(log.New(os.Stdout, ...), logger.Config\x7b
SlowThreshold: time.Second, LogLevel: logger.Error, Colorful: true\x7d)`. -/
def defaultLoggerConfig : LoggerConfig :=
  { writer := .stdout
    slowThresholdNs := timeSecond
    logLevel := .error
    colorful := true }

/-- `NewBaseConnectionManager(connStr, dialector, config)`: build the
manager, synthesize the default config when the supplied one is nil, then
eagerly call `GetConnection` once and return the manager with that call's
error. -/
def newBaseConnectionManager (env : Env) (connStr : String) (dialector : Dialector)
    (config : Option GormConfig) : MState × Option GoError :=
  let cfg : GormConfig :=
    match config with
    | some c => c
    | none => { logger := some defaultLoggerConfig, dialector := none }
  let cm : ConnectionManager :=
    { dialector := dialector
      config := cfg
      connStr := connStr
      db := none
      onceDone := false
      migratedTables := [] }
  let s : MState :=
    { cm := cm, openCount := 0, poolCalls := [], syncCalls := [], loggedErrors := [] }
  let (s', r) := getConnection env s
  (s', r.2)

/-- Outcome of `MustNewBaseConnectionManager`: either the manager, or the
process aborted by `log.Fatalf`. -/
inductive MustResult
  | ok (s : MState)
  | fatal (e : GoError)
deriving DecidableEq, Repr

/-- `MustNewBaseConnectionManager`: construct, and `log.Fatalf` (process
abort) when construction returned an error. -/
def mustNewBaseConnectionManager (env : Env) (connStr : String) (dialector : Dialector)
    (config : Option GormConfig) : MustResult :=
  match newBaseConnectionManager env connStr dialector config with
  | (_, some e) => .fatal e
  | (s, none) => .ok s

/-- The filter loop of `AutoMigrate`: walk the input tables; for each,
take `reflect.ValueOf(table).Type()` (panic on a nil value, flagged by the
Bool), and when the type is not yet in `migratedTables` append the value
to the pending batch and mark the type immediately.  Returns
(pending batch, new migrated set, panicked?). -/
def filterTables : List GoVal → List GoVal → List GoType →
    List GoVal × List GoType × Bool
  | [], pending, mig => (pending, mig, false)
  | table :: rest, pending, mig =>
      match table.reflectType with
      | none => (pending, mig, true)
      | some t =>
          if t ∈ mig then
            filterTables rest pending mig
          else
            filterTables rest (pending ++ [table]) (mig ++ [t])

/-- Outcome of a call to `AutoMigrate`: a Go panic that unwound mid-loop
(with the state at that point, since the map mutations already happened),
or a normal return with an error value. -/
inductive MigrateOutcome
  | panicked (s : MState)
  | ok (s : MState) (err : Option GoError)
deriving DecidableEq, Repr

/-- `AutoMigrate(tables...)`: return `ErrConnectionClosed` when `c.db` is
nil; otherwise filter the tables against `migratedTables` (marking each
new type before anything is executed) and delegate the pending batch to
`c.db.AutoMigrate(unmigratedTables...)`, returning its result as-is. -/
def autoMigrate (env : Env) (s : MState) (tables : List GoVal) : MigrateOutcome :=
  match s.cm.db with
  | none => .ok s (some .errConnectionClosed)
  | some _ =>
      match filterTables tables [] s.cm.migratedTables with
      | (pending, mig, panicked) =>
          let s' := { s with cm := { s.cm with migratedTables := mig } }
          if panicked then
            .panicked s'
          else
            let s'' := { s' with syncCalls := s'.syncCalls ++ [pending] }
            .ok s'' (env.syncResult pending)

/-- `AutoMigrateOrWarn(tables...)`: call `AutoMigrate` and, when it
returns an error, `log.Printf` it instead of propagating (a panic still
unwinds through). -/
def autoMigrateOrWarn (env : Env) (s : MState) (tables : List GoVal) : MigrateOutcome :=
  match autoMigrate env s tables with
  | .panicked s' => .panicked s'
  | .ok s' none => .ok s' none
  | .ok s' (some e) => .ok { s' with loggedErrors := s'.loggedErrors ++ [e] } none

/-- `Dialect()`: `return c.config.Name()` — the promoted `Name()` of the
`Dialector` embedded in `gorm.Config`; calling it on a nil embedded
dialector would panic, encoded as `none`. -/
def ConnectionManager.dialect (c : ConnectionManager) : Option String :=
  c.config.dialector.map Dialector.name

/-- `ConnString()`: `return c.connStr`. -/
def ConnectionManager.connString (c : ConnectionManager) : String :=
  c.connStr

/-! ## Derived notions used to state the claims -/

/-- A sequence of `n` successive `GetConnection` calls, returning the final
state and the list of results in call order. -/
def getConnectionCalls (env : Env) : MState → Nat → MState × List (Option DB × Option GoError)
  | s, 0 => (s, [])
  | s, n + 1 =>
      let p := getConnection env s
      let q := getConnectionCalls env p.1 n
      (q.1, p.2 :: q.2)

/-- The error produced by the one eager connection attempt: the
`gorm.Open` failure if any, else the `DB()` retrieval failure, else
none. -/
def firstAttemptError (env : Env) : Option GoError :=
  match env.openResult 0 with
  | .error e => some e
  | .ok h => env.dbResult h

/-- The pool-control calls the protected action performs, by the outcome
of the first open attempt: none on any failure, `SetMaxIdleConns(10)` then
`SetMaxOpenConns(-1)` on full success. -/
def expectedPoolCalls (env : Env) : List PoolCall :=
  match env.openResult 0 with
  | .error _ => []
  | .ok h =>
      match env.dbResult h with
      | some _ => []
      | none => [.setMaxIdleConns 10, .setMaxOpenConns (-1)]

/-- A public operation on the manager. -/
inductive Op
  | getConn
  | autoMig (tables : List GoVal)
  | autoMigWarn (tables : List GoVal)

/-- The state carried by a migrate outcome (for a panic, the state at the
moment of the panic: the map mutations made before it already happened). -/
def MigrateOutcome.state : MigrateOutcome → MState
  | .panicked s => s
  | .ok s _ => s

/-- Run one public operation, keeping the resulting state. -/
def runOp (env : Env) (s : MState) : Op → MState
  | .getConn => (getConnection env s).1
  | .autoMig ts => (autoMigrate env s ts).state
  | .autoMigWarn ts => (autoMigrateOrWarn env s ts).state

/-- Run a sequence of public operations. -/
def runOps (env : Env) (s : MState) : List Op → MState
  | [] => s
  | op :: ops => runOps env (runOp env s op) ops

/-- An environment whose `gorm.Open` always fails (an always-failing
dialector), returning a nil handle alongside the error. -/
def failEnv : Env :=
  { openResult := fun _ => .error (.external "open failed")
    openErrHandle := fun _ => none
    dbResult := fun _ => none
    syncResult := fun _ => none }

/-- An environment whose collaborators all succeed; `gorm.Open` yields
handle `7`. -/
def okEnv : Env :=
  { openResult := fun _ => .ok 7
    openErrHandle := fun _ => none
    dbResult := fun _ => none
    syncResult := fun _ => none }

/-! ## Characterization of construction -/

/-- `NewBaseConnectionManager`, spelled out by the outcome of the single
eager open attempt. -/
theorem newBase_spec (env : Env) (cs : String) (d : Dialector) (cfg : Option GormConfig) :
    newBaseConnectionManager env cs d cfg =
      (let cfg0 : GormConfig :=
        match cfg with
        | some c => c
        | none => { logger := some defaultLoggerConfig, dialector := none }
       let cfg' : GormConfig := { cfg0 with dialector := some d }
       match env.openResult 0 with
       | .error e =>
           (⟨⟨d, cfg', cs, env.openErrHandle 0, true, []⟩, 1, [], [], []⟩, some e)
       | .ok h =>
           match env.dbResult h with
           | some e =>
               (⟨⟨d, cfg', cs, some h, true, []⟩, 1, [], [], []⟩, some e)
           | none =>
               (⟨⟨d, cfg', cs, some h, true, []⟩, 1,
                 [.setMaxIdleConns 10, .setMaxOpenConns (-1)], [], []⟩, none)) := by
  cases cfg with
  | none =>
      unfold newBaseConnectionManager getConnection execOnceOnlyFunc gormOpenConfig
      cases h : env.openResult 0 with
      | error e => simp [h]
      | ok hdb =>
          cases hd : env.dbResult hdb with
          | none => simp [h, hd]
          | some e => simp [h, hd]
  | some c =>
      unfold newBaseConnectionManager getConnection execOnceOnlyFunc gormOpenConfig
      cases h : env.openResult 0 with
      | error e => simp [h]
      | ok hdb =>
          cases hd : env.dbResult hdb with
          | none => simp [h, hd]
          | some e => simp [h, hd]

/-- The manager construction returns: the dialector, the resolved config
with the dialector installed into it by `gorm.Open`, the connection
string, the handle from the open attempt, a fired once-gate, an empty
migrated set. -/
theorem newBase_cm (env : Env) (cs : String) (d : Dialector) (cfg : Option GormConfig) :
    (newBaseConnectionManager env cs d cfg).1.cm =
      ⟨d,
       { (match cfg with
          | some c => c
          | none => { logger := some defaultLoggerConfig, dialector := none }) with
           dialector := some d },
       cs,
       (match env.openResult 0 with
        | .error _ => env.openErrHandle 0
        | .ok h => some h),
       true, []⟩ := by
  rw [newBase_spec]
  cases cfg with
  | none =>
      cases h : env.openResult 0 with
      | error e => simp
      | ok hdb => cases hd : env.dbResult hdb <;> simp [hd]
  | some c =>
      cases h : env.openResult 0 with
      | error e => simp
      | ok hdb => cases hd : env.dbResult hdb <;> simp [hd]

/-- Construction returns exactly the error of the eager first attempt. -/
theorem newBase_err (env : Env) (cs : String) (d : Dialector) (cfg : Option GormConfig) :
    (newBaseConnectionManager env cs d cfg).2 = firstAttemptError env := by
  rw [newBase_spec]
  unfold firstAttemptError
  cases cfg with
  | none =>
      cases h : env.openResult 0 with
      | error e => simp
      | ok hdb => cases hd : env.dbResult hdb <;> simp [hd]
  | some c =>
      cases h : env.openResult 0 with
      | error e => simp
      | ok hdb => cases hd : env.dbResult hdb <;> simp [hd]

/-- The collaborator event logs right after construction. -/
theorem newBase_logs (env : Env) (cs : String) (d : Dialector) (cfg : Option GormConfig) :
    (newBaseConnectionManager env cs d cfg).1.openCount = 1 ∧
    (newBaseConnectionManager env cs d cfg).1.poolCalls = expectedPoolCalls env ∧
    (newBaseConnectionManager env cs d cfg).1.syncCalls = [] ∧
    (newBaseConnectionManager env cs d cfg).1.loggedErrors = [] := by
  rw [newBase_spec]
  unfold expectedPoolCalls
  cases cfg with
  | none =>
      cases h : env.openResult 0 with
      | error e => simp
      | ok hdb => cases hd : env.dbResult hdb <;> simp [hd]
  | some c =>
      cases h : env.openResult 0 with
      | error e => simp
      | ok hdb => cases hd : env.dbResult hdb <;> simp [hd]

theorem newBase_onceDone (env : Env) (cs : String) (d : Dialector) (cfg : Option GormConfig) :
    (newBaseConnectionManager env cs d cfg).1.cm.onceDone = true := by
  rw [newBase_cm]

/-- `GetConnection` on a manager whose once-gate has fired: no state
change, the stored handle, and a nil error (the call-local `err` is never
set again). -/
theorem getConnection_done (env : Env) (s : MState) (h : s.cm.onceDone = true) :
    getConnection env s = (s, (s.cm.db, none)) := by
  simp [getConnection, h]

/-- Any number of `GetConnection` calls after the gate fired: the state is
untouched and every call returns the stored handle with a nil error. -/
theorem getConnectionCalls_done (env : Env) (s : MState) (h : s.cm.onceDone = true)
    (n : Nat) :
    getConnectionCalls env s n = (s, List.replicate n (s.cm.db, none)) := by
  induction n with
  | zero => simp [getConnectionCalls]
  | succ k ih =>
      simp [getConnectionCalls, getConnection_done env s h, ih, List.replicate_succ]

/-- The protected once-action on an arbitrary state, spelled out by the
outcome of its open attempt. -/
theorem execOnce_spec (env : Env) (s : MState) :
    execOnceOnlyFunc env s =
      (match env.openResult s.openCount with
       | .error e =>
           ({ s with
                openCount := s.openCount + 1,
                cm := { s.cm with
                          config := { s.cm.config with dialector := some s.cm.dialector },
                          db := env.openErrHandle s.openCount } }, some e)
       | .ok h =>
           match env.dbResult h with
           | some e =>
               ({ s with
                    openCount := s.openCount + 1,
                    cm := { s.cm with
                              config := { s.cm.config with dialector := some s.cm.dialector },
                              db := some h } }, some e)
           | none =>
               ({ s with
                    openCount := s.openCount + 1,
                    cm := { s.cm with
                              config := { s.cm.config with dialector := some s.cm.dialector },
                              db := some h },
                    poolCalls := s.poolCalls ++
                      [.setMaxIdleConns 10, .setMaxOpenConns (-1)] }, none)) := by
  unfold execOnceOnlyFunc gormOpenConfig
  cases ho : env.openResult s.openCount with
  | error e => simp [ho]
  | ok hdb => cases hd : env.dbResult hdb <;> simp [ho, hd]

/-- `GetConnection` never touches the migrated set or the sync log. -/
theorem getConnection_keeps (env : Env) (s : MState) :
    (getConnection env s).1.cm.migratedTables = s.cm.migratedTables ∧
    (getConnection env s).1.syncCalls = s.syncCalls := by
  unfold getConnection
  cases h : s.cm.onceDone with
  | true => simp
  | false =>
      rw [execOnce_spec]
      cases ho : env.openResult s.openCount with
      | error e => simp
      | ok hdb => cases hd : env.dbResult hdb <;> simp [hd]

/-- Core properties of the `AutoMigrate` filter loop, for any incoming
pending batch and migrated set: the migrated set only grows by appending;
any value of the resulting batch was either already pending or has a type
identity outside the incoming migrated set; and on a panic-free pass every
processed value's type identity lands in the resulting migrated set. -/
theorem filterTables_spec (ts : List GoVal) :
    ∀ pending mig,
      (∃ ext, (filterTables ts pending mig).2.1 = mig ++ ext) ∧
      (∀ v, v ∈ (filterTables ts pending mig).1 →
        v ∈ pending ∨ ∀ ty, v.reflectType = some ty → ty ∉ mig) ∧
      ((filterTables ts pending mig).2.2 = false →
        ∀ v, v ∈ ts → ∀ ty, v.reflectType = some ty →
          ty ∈ (filterTables ts pending mig).2.1) := by
  induction ts with
  | nil =>
      intro pending mig
      refine ⟨⟨[], by simp [filterTables]⟩, ?_, ?_⟩
      · intro v hv
        exact Or.inl (by simpa [filterTables] using hv)
      · intro _ v hv
        cases hv
  | cons t rest ih =>
      intro pending mig
      cases ht : t.reflectType with
      | none =>
          refine ⟨⟨[], by simp [filterTables, ht]⟩, ?_, ?_⟩
          · intro v hv
            exact Or.inl (by simpa [filterTables, ht] using hv)
          · intro hb
            simp [filterTables, ht] at hb
      | some ty =>
          by_cases hm : ty ∈ mig
          · have hred : filterTables (t :: rest) pending mig =
                filterTables rest pending mig := by
              simp [filterTables, ht, hm]
            obtain ⟨⟨ext, h1⟩, h2, h3⟩ := ih pending mig
            refine ⟨⟨ext, by rw [hred]; exact h1⟩, ?_, ?_⟩
            · intro v hv
              exact h2 v (by rwa [hred] at hv)
            · intro hb v hv ty' hty'
              rw [hred] at hb ⊢
              rcases List.mem_cons.mp hv with hv1 | hv2
              · subst hv1
                rw [ht] at hty'
                obtain ⟨ext, h1⟩ := (ih pending mig).1
                rw [h1]
                exact List.mem_append_left _ (by
                  cases hty'
                  exact hm)
              · exact h3 hb v hv2 ty' hty'
          · have hred : filterTables (t :: rest) pending mig =
                filterTables rest (pending ++ [t]) (mig ++ [ty]) := by
              simp [filterTables, ht, hm]
            obtain ⟨⟨ext, h1⟩, h2, h3⟩ := ih (pending ++ [t]) (mig ++ [ty])
            refine ⟨⟨ty :: ext, by rw [hred, h1]; simp⟩, ?_, ?_⟩
            · intro v hv
              rcases h2 v (by rwa [hred] at hv) with hv1 | hv2
              · rcases List.mem_append.mp hv1 with hp | hp
                · exact Or.inl hp
                · refine Or.inr ?_
                  intro ty' hty'
                  have : v = t := by simpa using hp
                  subst this
                  rw [ht] at hty'
                  cases hty'
                  exact hm
              · refine Or.inr ?_
                intro ty' hty'
                have := hv2 ty' hty'
                intro hmem
                exact this (List.mem_append_left _ hmem)
            · intro hb v hv ty' hty'
              rw [hred] at hb ⊢
              rcases List.mem_cons.mp hv with hv1 | hv2
              · rw [hv1, ht] at hty'
                cases hty'
                obtain ⟨ext', h1'⟩ := (ih (pending ++ [t]) (mig ++ [ty])).1
                rw [h1']
                exact List.mem_append_left _ (List.mem_append_right _ (by simp))
              · exact h3 hb v hv2 ty' hty'

/-- `AutoMigrate` on an established handle, given the filter loop's
panic-free outcome: mark the new types, log one sync batch, return the
sync engine's verdict unchanged. -/
theorem autoMigrate_step (env : Env) (s : MState) (tables : List GoVal) (h : DB)
    (hdb : s.cm.db = some h) (pending : List GoVal) (mig : List GoType)
    (hf : filterTables tables [] s.cm.migratedTables = (pending, mig, false)) :
    autoMigrate env s tables =
      .ok { s with cm := { s.cm with migratedTables := mig },
                   syncCalls := s.syncCalls ++ [pending] }
        (env.syncResult pending) := by
  unfold autoMigrate
  rw [hdb, hf]
  simp

/-- Effect summary of one `AutoMigrate` call, for any state: the migrated
set only grows by appending, and any newly logged sync batch holds only
values whose type identity was not yet migrated when the call started. -/
theorem autoMigrate_effects (env : Env) (s : MState) (tables : List GoVal) :
    (∃ ext, (autoMigrate env s tables).state.cm.migratedTables =
        s.cm.migratedTables ++ ext) ∧
    (∃ new, (autoMigrate env s tables).state.syncCalls = s.syncCalls ++ new ∧
        ∀ batch, batch ∈ new → ∀ v, v ∈ batch →
          ∀ ty, v.reflectType = some ty → ty ∉ s.cm.migratedTables) := by
  unfold autoMigrate
  cases hdb : s.cm.db with
  | none =>
      refine ⟨⟨[], by simp [MigrateOutcome.state]⟩,
        ⟨[], by simp [MigrateOutcome.state], ?_⟩⟩
      intro batch hb
      cases hb
  | some h =>
      rcases hf : filterTables tables [] s.cm.migratedTables with ⟨pending, mig, b⟩
      obtain ⟨⟨ext, h1⟩, h2, _⟩ := filterTables_spec tables [] s.cm.migratedTables
      rw [hf] at h1 h2
      have h1' : mig = s.cm.migratedTables ++ ext := h1
      have h2' : ∀ v, v ∈ pending → v ∈ ([] : List GoVal) ∨
          ∀ ty, v.reflectType = some ty → ty ∉ s.cm.migratedTables := h2
      cases b with
      | true =>
          refine ⟨⟨ext, by simp [MigrateOutcome.state, h1']⟩,
            ⟨[], by simp [MigrateOutcome.state], ?_⟩⟩
          intro batch hb
          cases hb
      | false =>
          refine ⟨⟨ext, by simp [MigrateOutcome.state, h1']⟩,
            ⟨[pending], by simp [MigrateOutcome.state], ?_⟩⟩
          intro batch hb v hv ty hty
          have hb' : batch = pending := by simpa using hb
          subst hb'
          rcases h2' v hv with hp | hp
          · cases hp
          · exact hp ty hty

/-- `AutoMigrateOrWarn` leaves the manager fields and the sync log exactly
as `AutoMigrate` does (it only appends to the warning log). -/
theorem autoMigrateOrWarn_state (env : Env) (s : MState) (tables : List GoVal) :
    (autoMigrateOrWarn env s tables).state.cm = (autoMigrate env s tables).state.cm ∧
    (autoMigrateOrWarn env s tables).state.syncCalls =
      (autoMigrate env s tables).state.syncCalls := by
  unfold autoMigrateOrWarn
  cases hr : autoMigrate env s tables with
  | panicked s' => simp [MigrateOutcome.state]
  | ok s' err => cases err <;> simp [MigrateOutcome.state]

/-- Effect summary of one public operation: the migrated set only grows by
appending and newly logged sync batches avoid every already-migrated type
identity. -/
theorem runOp_effects (env : Env) (s : MState) (op : Op) :
    (∃ ext, (runOp env s op).cm.migratedTables = s.cm.migratedTables ++ ext) ∧
    (∃ new, (runOp env s op).syncCalls = s.syncCalls ++ new ∧
        ∀ batch, batch ∈ new → ∀ v, v ∈ batch →
          ∀ ty, v.reflectType = some ty → ty ∉ s.cm.migratedTables) := by
  cases op with
  | getConn =>
      obtain ⟨h1, h2⟩ := getConnection_keeps env s
      refine ⟨⟨[], by simp [runOp, h1]⟩, ⟨[], by simp [runOp, h2], ?_⟩⟩
      intro batch hb
      cases hb
  | autoMig ts =>
      obtain ⟨⟨ext, h1⟩, ⟨new, h2, h3⟩⟩ := autoMigrate_effects env s ts
      exact ⟨⟨ext, h1⟩, ⟨new, h2, h3⟩⟩
  | autoMigWarn ts =>
      obtain ⟨⟨ext, h1⟩, ⟨new, h2, h3⟩⟩ := autoMigrate_effects env s ts
      obtain ⟨hw1, hw2⟩ := autoMigrateOrWarn_state env s ts
      exact ⟨⟨ext, by rw [runOp, hw1]; exact h1⟩,
        ⟨new, by rw [runOp, hw2]; exact h2, h3⟩⟩

/-- Effect summary of a sequence of public operations. -/
theorem runOps_effects (env : Env) (ops : List Op) : ∀ s : MState,
    (∃ ext, (runOps env s ops).cm.migratedTables = s.cm.migratedTables ++ ext) ∧
    (∃ new, (runOps env s ops).syncCalls = s.syncCalls ++ new ∧
        ∀ batch, batch ∈ new → ∀ v, v ∈ batch →
          ∀ ty, v.reflectType = some ty → ty ∉ s.cm.migratedTables) := by
  induction ops with
  | nil =>
      intro s
      refine ⟨⟨[], by simp [runOps]⟩, ⟨[], by simp [runOps], ?_⟩⟩
      intro batch hb
      cases hb
  | cons op ops ih =>
      intro s
      obtain ⟨⟨ext1, h1⟩, ⟨new1, h2, h3⟩⟩ := runOp_effects env s op
      obtain ⟨⟨ext2, h4⟩, ⟨new2, h5, h6⟩⟩ := ih (runOp env s op)
      refine ⟨⟨ext1 ++ ext2, by rw [runOps, h4, h1, List.append_assoc]⟩,
        ⟨new1 ++ new2, by rw [runOps, h5, h2, List.append_assoc], ?_⟩⟩
      intro batch hb v hv ty hty
      rcases List.mem_append.mp hb with hb1 | hb2
      · exact h3 batch hb1 v hv ty hty
      · intro hmem
        exact h6 batch hb2 v hv ty hty (by rw [h1]; exact List.mem_append_left _ hmem)

/-- The filter loop panics as soon as it reaches a nil value: a nil value
anywhere in the input makes the pass panic. -/
theorem filterTables_nil_panics (ts : List GoVal) : ∀ pending mig, GoVal.nil ∈ ts →
    (filterTables ts pending mig).2.2 = true := by
  induction ts with
  | nil =>
      intro _ _ h
      cases h
  | cons t rest ih =>
      intro pending mig h
      cases t with
      | nil => simp [filterTables, GoVal.reflectType]
      | mk ty ident =>
          have hr : GoVal.nil ∈ rest := by
            rcases List.mem_cons.mp h with h1 | h2
            · cases h1
            · exact h2
          by_cases hm : ty ∈ mig <;>
            simp [filterTables, GoVal.reflectType, hm, ih _ _ hr]

/-! ## Claim theorems -/

/-- **C1** (code bug).  The spec says the error of the failed one-time open
is returned to every subsequent `GetConnection` caller.  In the code,
`err` is a variable local to each `GetConnection` call, assigned only
inside the closure that `c.once.Do` runs on the first call; on every later
call the closure is skipped and the local `err` is still nil.  At the
concrete failing input — standard construction under an always-failing
dialector, then one more `GetConnection` call — construction surfaces the
open error, but the subsequent call returns a nil error (together with the
nil handle), while the claim requires it to return the same non-nil open
error; the open operation is indeed not re-invoked. -/
theorem c1_subsequent_call_drops_open_error :
    (newBaseConnectionManager failEnv "dsn" ⟨"postgres"⟩ none).2 =
      some (.external "open failed") ∧
    (getConnection failEnv (newBaseConnectionManager failEnv "dsn" ⟨"postgres"⟩ none).1).2 =
      (none, none) ∧
    (getConnection failEnv (newBaseConnectionManager failEnv "dsn" ⟨"postgres"⟩ none).1).1.openCount
      = 1 :=
  ⟨rfl, rfl, rfl⟩

/-- **C2**.  Over the manager's whole lifetime the open operation runs
exactly once — construction leaves the invocation count at 1, and any
number `n` of further `GetConnection` calls leaves the state (hence the
count) untouched — and every one of those calls returns the same stored
handle reference `(… ).cm.db`. -/
theorem c2_open_exactly_once (env : Env) (cs : String) (d : Dialector)
    (cfg : Option GormConfig) (n : Nat) :
    (newBaseConnectionManager env cs d cfg).1.openCount = 1 ∧
    getConnectionCalls env (newBaseConnectionManager env cs d cfg).1 n =
      ((newBaseConnectionManager env cs d cfg).1,
        List.replicate n ((newBaseConnectionManager env cs d cfg).1.cm.db, none)) :=
  ⟨(newBase_logs env cs d cfg).1,
    getConnectionCalls_done env _ (newBase_onceDone env cs d cfg) n⟩

/-- **C4**.  After construction (whatever the open outcome and whether a
config was supplied), `Dialect()` returns the canonical name of the
dialector supplied at construction — `gorm.Open` installed that dialector
into the manager's config during the eager first attempt, and
`Config.Name()` is the promoted method of that embedded dialector — and
`ConnString()` returns the construction connection string.  Both are plain
functions of the manager (no state transformation in the model, hence no
side effects) and neither hits its failure mode here. -/
theorem c4_accessors (env : Env) (cs : String) (d : Dialector) (cfg : Option GormConfig) :
    (newBaseConnectionManager env cs d cfg).1.cm.dialect = some d.name ∧
    (newBaseConnectionManager env cs d cfg).1.cm.connString = cs := by
  constructor <;>
    simp [newBase_cm, ConnectionManager.dialect, ConnectionManager.connString]

/-- **C5**.  On a manager whose handle is unset (`c.db == nil`),
`AutoMigrate` returns the sentinel `ErrConnectionClosed` with the state
completely unchanged — in particular no sync-engine call is logged and the
migrated set is untouched — and the sentinel is distinct from every
collaborator error. -/
theorem c5_closed_guard (env : Env) (s : MState) (tables : List GoVal)
    (h : s.cm.db = none) :
    autoMigrate env s tables = .ok s (some .errConnectionClosed) ∧
    ∀ msg, (GoError.errConnectionClosed : GoError) ≠ .external msg := by
  refine ⟨?_, fun msg => by simp⟩
  unfold autoMigrate
  rw [h]

/-- Witness for C5: a manager built under an always-failing open (nil
handle alongside the error) satisfies the guard hypothesis, and
`AutoMigrate` on it returns the sentinel with the state unchanged. -/
theorem c5_closed_guard_witness :
    (newBaseConnectionManager failEnv "dsn" ⟨"postgres"⟩ none).1.cm.db = none ∧
    autoMigrate failEnv (newBaseConnectionManager failEnv "dsn" ⟨"postgres"⟩ none).1 [.mk 0 0] =
      .ok (newBaseConnectionManager failEnv "dsn" ⟨"postgres"⟩ none).1
        (some .errConnectionClosed) :=
  ⟨rfl, (c5_closed_guard failEnv _ [.mk 0 0] rfl).1⟩

/-- **C7**.  Construction eagerly performs the first open attempt (the
invocation count is already 1) and the standard constructor returns
exactly that attempt's error; the fatal variant aborts the process
(`log.Fatalf`) precisely when that attempt failed and otherwise returns
the same manager. -/
theorem c7_construction (env : Env) (cs : String) (d : Dialector) (cfg : Option GormConfig) :
    (newBaseConnectionManager env cs d cfg).1.openCount = 1 ∧
    (newBaseConnectionManager env cs d cfg).2 = firstAttemptError env ∧
    mustNewBaseConnectionManager env cs d cfg =
      (match firstAttemptError env with
       | some e => .fatal e
       | none => .ok (newBaseConnectionManager env cs d cfg).1) := by
  refine ⟨(newBase_logs env cs d cfg).1, newBase_err env cs d cfg, ?_⟩
  have hp := newBase_err env cs d cfg
  unfold mustNewBaseConnectionManager
  rw [← hp]
  cases h : newBaseConnectionManager env cs d cfg with
  | mk s err => cases err <;> simp

/-- **C8**.  Constructing with a nil config synthesizes the default: a
logger writing to standard output with slow-query threshold
`time.Second` = 1000000000 ns (exactly 1 second), error-level verbosity
and colorized output; constructing with a supplied config keeps that
config (`gorm.Open` only installs the dialector into it during the eager
open). -/
theorem c8_default_config (env : Env) (cs : String) (d : Dialector) :
    ((newBaseConnectionManager env cs d none).1.cm.config.logger =
        some { writer := .stdout, slowThresholdNs := timeSecond,
               logLevel := .error, colorful := true } ∧
      timeSecond = 1000000000) ∧
    ∀ c : GormConfig, (newBaseConnectionManager env cs d (some c)).1.cm.config =
        { c with dialector := some d } := by
  refine ⟨⟨?_, rfl⟩, fun c => ?_⟩
  · simp [newBase_cm, defaultLoggerConfig]
  · simp [newBase_cm]

/-- **C9**.  The pool-control calls made during the manager's lifetime are
exactly `expectedPoolCalls`: `SetMaxIdleConns(10)` followed by
`SetMaxOpenConns(-1)` (the `database/sql` sentinel for "no limit") when
the one-time open attempt fully succeeds, and none at all on any failure;
later `GetConnection` calls never add pool calls. -/
theorem c9_pool_settings (env : Env) (cs : String) (d : Dialector)
    (cfg : Option GormConfig) (n : Nat) :
    (newBaseConnectionManager env cs d cfg).1.poolCalls = expectedPoolCalls env ∧
    (getConnectionCalls env (newBaseConnectionManager env cs d cfg).1 n).1.poolCalls =
      expectedPoolCalls env := by
  have h1 := (newBase_logs env cs d cfg).2.1
  refine ⟨h1, ?_⟩
  rw [getConnectionCalls_done env _ (newBase_onceDone env cs d cfg) n]
  exact h1

/-- **C3**.  On a freshly constructed manager with an established handle,
calling `AutoMigrate` with two schema definitions `A, B` of distinct type
identities and then with `A, B, C` hands the sync engine the batch
`[A, B]` on the first call and exactly `[C]` on the second: the type
identities seen by the earlier call are filtered out of the later batch. -/
theorem c3_migration_filter (env : Env) (cs : String) (d : Dialector)
    (cfg : Option GormConfig) (hdb : DB) (hopen : env.openResult 0 = .ok hdb)
    (A B C : GoVal) (tyA tyB tyC : GoType)
    (hA : A.reflectType = some tyA) (hB : B.reflectType = some tyB)
    (hC : C.reflectType = some tyC)
    (hAB : tyA ≠ tyB) (hAC : tyA ≠ tyC) (hBC : tyB ≠ tyC) :
    ∃ s₁ e₁ s₂ e₂,
      autoMigrate env (newBaseConnectionManager env cs d cfg).1 [A, B] = .ok s₁ e₁ ∧
      s₁.syncCalls = [[A, B]] ∧
      autoMigrate env s₁ [A, B, C] = .ok s₂ e₂ ∧
      s₂.syncCalls = [[A, B], [C]] := by
  have hcm := newBase_cm env cs d cfg
  have hdb1 : (newBaseConnectionManager env cs d cfg).1.cm.db = some hdb := by
    rw [hcm, hopen]
  have hmig1 : (newBaseConnectionManager env cs d cfg).1.cm.migratedTables = [] := by
    rw [hcm]
  have hsync1 : (newBaseConnectionManager env cs d cfg).1.syncCalls = [] :=
    (newBase_logs env cs d cfg).2.2.1
  have hf1 : filterTables [A, B] []
      (newBaseConnectionManager env cs d cfg).1.cm.migratedTables =
      ([A, B], [tyA, tyB], false) := by
    rw [hmig1]
    simp [filterTables, hA, hB, Ne.symm hAB]
  have h1 := autoMigrate_step env (newBaseConnectionManager env cs d cfg).1 [A, B]
    hdb hdb1 [A, B] [tyA, tyB] hf1
  have hf2 : filterTables [A, B, C] [] [tyA, tyB] = ([C], [tyA, tyB, tyC], false) := by
    simp [filterTables, hA, hB, hC, Ne.symm hAC, Ne.symm hBC]
  have h2 := autoMigrate_step env
    { (newBaseConnectionManager env cs d cfg).1 with
        cm := { (newBaseConnectionManager env cs d cfg).1.cm with
                  migratedTables := [tyA, tyB] },
        syncCalls := (newBaseConnectionManager env cs d cfg).1.syncCalls ++ [[A, B]] }
    [A, B, C] hdb hdb1 [C] [tyA, tyB, tyC] hf2
  refine ⟨_, _, _, _, h1, ?_, h2, ?_⟩
  · simp [hsync1]
  · simp [hsync1]

/-- Witness for C3: the concrete scenario under an all-succeeding
environment with three values of type identities 0, 1, 2. -/
theorem c3_migration_filter_witness :
    ∃ s₁ e₁ s₂ e₂,
      autoMigrate okEnv (newBaseConnectionManager okEnv "dsn" ⟨"postgres"⟩ none).1
        [.mk 0 0, .mk 1 0] = .ok s₁ e₁ ∧
      s₁.syncCalls = [[.mk 0 0, .mk 1 0]] ∧
      autoMigrate okEnv s₁ [.mk 0 0, .mk 1 0, .mk 2 0] = .ok s₂ e₂ ∧
      s₂.syncCalls = [[.mk 0 0, .mk 1 0], [.mk 2 0]] :=
  c3_migration_filter okEnv "dsn" ⟨"postgres"⟩ none 7 rfl
    (.mk 0 0) (.mk 1 0) (.mk 2 0) 0 1 2 rfl rfl rfl
    (by decide) (by decide) (by decide)

/-- **C6**.  (1) Across any sequence of public operations the migrated set
only grows, by appending — entries are never removed.  (2) A processing
`AutoMigrate` call (established handle, normal return, even when the sync
engine reports a failure) has every input value's type identity in the
resulting migrated set: marking happens before the batched sync call is
confirmed.  (3) Once a type identity is in the migrated set, no sync batch
logged by any later sequence of operations ever contains a value of that
type — a definition marked during a failing call is never retried. -/
theorem c6_monotone_mark_before_sync :
    (∀ env s ops, ∃ ext,
        (runOps env s ops).cm.migratedTables = s.cm.migratedTables ++ ext) ∧
    (∀ env s tables h s' e, s.cm.db = some h →
        autoMigrate env s tables = .ok s' e →
        ∀ v, v ∈ tables → ∀ ty, v.reflectType = some ty →
          ty ∈ s'.cm.migratedTables) ∧
    (∀ env s ops ty, ty ∈ s.cm.migratedTables →
        ∀ batch, batch ∈ (runOps env s ops).syncCalls.drop s.syncCalls.length →
          ∀ v, v ∈ batch → v.reflectType ≠ some ty) := by
  refine ⟨fun env s ops => (runOps_effects env ops s).1, ?_, ?_⟩
  · intro env s tables h s' e hdb hok v hv ty hty
    rcases hf : filterTables tables [] s.cm.migratedTables with ⟨pending, mig, b⟩
    obtain ⟨_, _, h3⟩ := filterTables_spec tables [] s.cm.migratedTables
    rw [hf] at h3
    cases b with
    | true =>
        have hpan : autoMigrate env s tables =
            .panicked { s with cm := { s.cm with migratedTables := mig } } := by
          unfold autoMigrate
          rw [hdb, hf]
          simp
        rw [hpan] at hok
        cases hok
    | false =>
        have hstep := autoMigrate_step env s tables h hdb pending mig hf
        rw [hstep] at hok
        cases hok
        have h3' : (false : Bool) = false →
            ∀ v, v ∈ tables → ∀ ty, v.reflectType = some ty → ty ∈ mig := h3
        exact h3' rfl v hv ty hty
  · intro env s ops
    induction ops generalizing s with
    | nil =>
        intro ty hty batch hb
        simp [runOps, List.drop_length] at hb
    | cons op ops ih =>
        intro ty hty batch hb v hv hvty
        obtain ⟨⟨ext1, h1⟩, ⟨new1, h2, h3⟩⟩ := runOp_effects env s op
        obtain ⟨_, ⟨new2, h5, _⟩⟩ := runOps_effects env ops (runOp env s op)
        rw [runOps, h5, h2, List.append_assoc, List.drop_left] at hb
        rcases List.mem_append.mp hb with hb1 | hb2
        · exact h3 batch hb1 v hv ty hvty hty
        · have hty' : ty ∈ (runOp env s op).cm.migratedTables := by
            rw [h1]
            exact List.mem_append_left _ hty
          have hb' : batch ∈ (runOps env (runOp env s op) ops).syncCalls.drop
              (runOp env s op).syncCalls.length := by
            rw [h5, List.drop_left]
            exact hb2
          exact ih (runOp env s op) ty hty' batch hb' v hv hvty

/-- Witness for C6 at concrete inputs: a manager with type identity 1
already migrated; a fresh `AutoMigrate` of a value of type 2 marks 2 in
the resulting set; and after the operation `AutoMigrate [mk 1 7, mk 2 0]`
the only logged batch contains no value of the already-migrated type 1. -/
theorem c6_witness :
    (∃ ext,
      (runOps okEnv ⟨⟨⟨"pg"⟩, ⟨none, none⟩, "dsn", some 1, true, [1]⟩, 1, [], [], []⟩
          [.autoMig [.mk 1 7, .mk 2 0]]).cm.migratedTables =
        (⟨⟨⟨"pg"⟩, ⟨none, none⟩, "dsn", some 1, true, [1]⟩, 1, [], [], []⟩ :
          MState).cm.migratedTables ++ ext) ∧
    2 ∈ (⟨⟨⟨"pg"⟩, ⟨none, none⟩, "dsn", some 1, true, [1, 2]⟩, 1, [],
          [[GoVal.mk 2 0]], []⟩ : MState).cm.migratedTables ∧
    (GoVal.mk 2 0).reflectType ≠ some 1 :=
  ⟨c6_monotone_mark_before_sync.1 okEnv
      ⟨⟨⟨"pg"⟩, ⟨none, none⟩, "dsn", some 1, true, [1]⟩, 1, [], [], []⟩
      [.autoMig [.mk 1 7, .mk 2 0]],
   c6_monotone_mark_before_sync.2.1 okEnv
      ⟨⟨⟨"pg"⟩, ⟨none, none⟩, "dsn", some 1, true, [1]⟩, 1, [], [], []⟩
      [.mk 2 0] 1
      ⟨⟨⟨"pg"⟩, ⟨none, none⟩, "dsn", some 1, true, [1, 2]⟩, 1, [], [[GoVal.mk 2 0]], []⟩
      none rfl rfl (.mk 2 0) (by decide) 2 rfl,
   c6_monotone_mark_before_sync.2.2 okEnv
      ⟨⟨⟨"pg"⟩, ⟨none, none⟩, "dsn", some 1, true, [1]⟩, 1, [], [], []⟩
      [.autoMig [.mk 1 7, .mk 2 0]] 1 (by decide)
      [GoVal.mk 2 0] (by decide) (.mk 2 0) (by decide)⟩

/-- **C10**.  `AutoMigrate` (and `AutoMigrateOrWarn`) on a manager with an
established handle panics when a nil schema-definition value appears in
the arguments: the loop reaches the nil value and
`reflect.ValueOf(table).Type()` panics on the zero `reflect.Value`; nil is
never filtered out before the type identity is taken. -/
theorem c10_nil_panics (env : Env) (s : MState) (h : DB) (tables : List GoVal)
    (hdb : s.cm.db = some h) (hnil : GoVal.nil ∈ tables) :
    (∃ s', autoMigrate env s tables = .panicked s') ∧
    (∃ s', autoMigrateOrWarn env s tables = .panicked s') := by
  rcases hf : filterTables tables [] s.cm.migratedTables with ⟨pending, mig, b⟩
  have hp := filterTables_nil_panics tables [] s.cm.migratedTables hnil
  rw [hf] at hp
  have hb : b = true := hp
  subst hb
  have h1 : autoMigrate env s tables =
      .panicked { s with cm := { s.cm with migratedTables := mig } } := by
    unfold autoMigrate
    rw [hdb, hf]
    simp
  refine ⟨⟨_, h1⟩,
    ⟨{ s with cm := { s.cm with migratedTables := mig } }, ?_⟩⟩
  unfold autoMigrateOrWarn
  rw [h1]

/-- Witness for C10: a successfully constructed manager (handle 7) and the
argument list `[nil]`. -/
theorem c10_nil_panics_witness :
    (∃ s', autoMigrate okEnv (newBaseConnectionManager okEnv "dsn" ⟨"postgres"⟩ none).1
        [GoVal.nil] = .panicked s') ∧
    (∃ s', autoMigrateOrWarn okEnv
        (newBaseConnectionManager okEnv "dsn" ⟨"postgres"⟩ none).1
        [GoVal.nil] = .panicked s') :=
  c10_nil_panics okEnv _ 7 [GoVal.nil] rfl (by decide)

end Progorm
